import Mathlib

/-!
# UMusicManager: control logic of the background-music subsystem

Shallow embedding of `Source/MusicManager/Private/MusicManager.cpp`.

* Pointers (`USoundCue*`, `UAudioComponent*`, `UWorld*`) are `Option` values, `none` being
  `nullptr`.
* The engine is part of the state: the audio and timer commands issued so far (`trace`),
  the one-shot timer callbacks not yet run (`pending`), the `SongInterrupted` broadcasts
  delivered, the log lines written, and the supply of fresh component and timer ids.
* `float` arguments are only stored, forwarded and tested against zero by this code; they are
  integers here.
* A function that dereferences a pointer the code does not guard returns `Option State`,
  `none` standing for the null dereference.
-/

namespace MusicManager

/-- Value of a `float` argument (a time, a volume, a pitch). -/
abbrev Scalar := Int

/-- Sound asset behind a non-null `USoundCue*`; `duration` is what `GetDuration()` returns. -/
structure SoundCue where
  id : Nat
  duration : Scalar
deriving DecidableEq, Repr

/-- Identity of a `UAudioComponent` created by the engine. -/
abbrev Handle := Nat

/-- Identity of a `UWorld`. -/
abbrev WorldId := Nat

/-- Verbosity of a `UE_LOG` line. -/
inductive Verbosity where
  | Error
  | Warning
  | Display
deriving DecidableEq, Repr

/-- Commands the manager issues to the engine: sound creation, calls on an audio component,
and the two calls on the member timer handle `Timer`. -/
inductive EngineCmd where
  | CreateSound2D (h : Handle) (song : SoundCue)
  | Play (h : Handle) (startTime : Scalar)
  | Stop (h : Handle)
  | StopDelayed (h : Handle) (delay : Scalar)
  | SetPaused (h : Handle) (paused : Bool)
  | FadeIn (h : Handle) (duration : Scalar)
  | FadeOut (h : Handle) (duration : Scalar) (level : Scalar)
  | SetVolumeMultiplier (h : Handle) (volume : Scalar)
  | SetPitchMultiplier (h : Handle) (pitch : Scalar)
  | SetSound (h : Handle) (song : Option SoundCue)
  | ClearTimer
  | SetTimer
deriving DecidableEq, Repr

/-- The four lambdas handed to `FTimerManager::SetTimer` as one-shot callbacks, with the
values they capture. Every captured `song` has passed a null check before the capture. -/
inductive Deferred where
  | fadeInCreate (song : SoundCue) (fadeDuration : Scalar)
  | chimeReplace (song : SoundCue) (startTime : Scalar)
  | interruptionFinished (song : SoundCue) (keepPaused : Bool)
  | restartReplay
deriving DecidableEq, Repr

/-- Members of `UMusicManager` followed by the engine side. `Interruptions` is the `TArray`
used as a stack, head of the list being `Top()`. -/
structure State where
  Interruptions : List (Option SoundCue × Bool)
  Timer : Option Nat
  World : Option WorldId
  AudioComponent : Option Handle
  BackgroundSong : Option SoundCue
  gameWorld : Option WorldId
  nextHandle : Nat
  nextTimer : Nat
  trace : List EngineCmd
  pending : List (Scalar × Deferred)
  broadcasts : List (SoundCue × Bool)
  logs : List Verbosity
deriving DecidableEq, Repr

/-- A default-constructed manager in an engine that has done nothing yet; `w` is what
`GetWorld()` returns. -/
def constructed (w : Option WorldId) : State :=
  { Interruptions := [], Timer := none, World := none, AudioComponent := none,
    BackgroundSong := none, gameWorld := w, nextHandle := 0, nextTimer := 0,
    trace := [], pending := [], broadcasts := [], logs := [] }

/-! ## Engine primitives -/

/-- Append one command to the engine trace. -/
def emit (c : EngineCmd) (s : State) : State :=
  { s with trace := s.trace ++ [c] }

/-- Call of `UE_LOG` at the given verbosity. -/
def log (v : Verbosity) (s : State) : State :=
  { s with logs := s.logs ++ [v] }

/-- Engine call `UGameplayStatics::CreateSound2D`: the engine hands out a component never seen before. -/
def CreateSound2D (song : SoundCue) (s : State) : Handle × State :=
  (s.nextHandle,
   { s with nextHandle := s.nextHandle + 1,
            trace := s.trace ++ [EngineCmd.CreateSound2D s.nextHandle song] })

/-- Call `SetTimer(handle, lambda, delay, false)` on a local handle: a one-shot callback. -/
def schedule (delay : Scalar) (cb : Deferred) (s : State) : State :=
  { s with pending := s.pending ++ [(delay, cb)] }

/-- Call `World->GetTimerManager().ClearTimer(Timer)`. -/
def ClearTimer (s : State) : State :=
  { s with Timer := none, trace := s.trace ++ [EngineCmd.ClearTimer] }

/-- Call `World->GetTimerManager().SetTimer(Timer, 0.001f, true)`. -/
def SetTimer (s : State) : State :=
  { s with Timer := some s.nextTimer, nextTimer := s.nextTimer + 1,
           trace := s.trace ++ [EngineCmd.SetTimer] }

/-- Call `SongInterrupted.Broadcast(song, keepPaused)`. -/
def Broadcast (song : SoundCue) (keepPaused : Bool) (s : State) : State :=
  { s with broadcasts := s.broadcasts ++ [(song, keepPaused)] }

/-! ## UMusicManager -/

/-- Method `UMusicManager::Initialize`. -/
def Initialize (s : State) : State :=
  { s with BackgroundSong := none, AudioComponent := none }

/-- Method `UMusicManager::IsWorldValid`: caches `GetWorld()` in `World` and tests it. -/
def IsWorldValid (s : State) : Bool × State :=
  (s.gameWorld.isSome, { s with World := s.gameWorld })

/-- Method `UMusicManager::IsSongValid`. -/
def IsSongValid (s : State) : Bool :=
  s.BackgroundSong.isSome && s.AudioComponent.isSome

/-- Method `UMusicManager::GetSong`. -/
def GetSong (s : State) : Option SoundCue :=
  s.BackgroundSong

/-- Method `UMusicManager::GetSongDuration`. -/
def GetSongDuration (s : State) : Scalar :=
  if IsSongValid s then
    match s.BackgroundSong with
    | some c => c.duration
    | none => 0
  else 0

/-- Method `UMusicManager::Stop`. -/
def Stop (s : State) : State :=
  if IsSongValid s then
    match s.AudioComponent with
    | some h => log Verbosity.Display (emit (EngineCmd.Stop h) s)
    | none => s
  else s

/-- Method `UMusicManager::StopDelayed`. -/
def StopDelayed (delay : Scalar) (s : State) : State :=
  if IsSongValid s then
    match s.AudioComponent with
    | some h => log Verbosity.Display (emit (EngineCmd.StopDelayed h delay) s)
    | none => s
  else s

/-- Method `UMusicManager::Pause`. -/
def Pause (s : State) : State :=
  if IsSongValid s then
    match s.AudioComponent with
    | some h => log Verbosity.Display (emit (EngineCmd.SetPaused h true) s)
    | none => s
  else s

/-- Method `UMusicManager::Resume`. -/
def Resume (s : State) : State :=
  if IsSongValid s then
    match s.AudioComponent with
    | some h => log Verbosity.Display (emit (EngineCmd.SetPaused h false) s)
    | none => s
  else s

/-- Method `UMusicManager::SetVolume`. -/
def SetVolume (volume : Scalar) (s : State) : State :=
  if IsSongValid s then
    match s.AudioComponent with
    | some h => emit (EngineCmd.SetVolumeMultiplier h volume) s
    | none => s
  else s

/-- Method `UMusicManager::SetPitch`. -/
def SetPitch (pitch : Scalar) (s : State) : State :=
  if IsSongValid s then
    match s.AudioComponent with
    | some h => emit (EngineCmd.SetPitchMultiplier h pitch) s
    | none => s
  else s

/-- Method `UMusicManager::PlaySong`. -/
def PlaySong (song : Option SoundCue) (startTime : Scalar) (s : State) : State :=
  match song with
  | none => log Verbosity.Error s
  | some c =>
    let r := CreateSound2D c s
    emit (EngineCmd.Play r.1 startTime) { r.2 with AudioComponent := some r.1 }

/-- Method `UMusicManager::Play`. -/
def Play (song : Option SoundCue) (startTime : Scalar) (s : State) : State :=
  let w := IsWorldValid s
  if w.1 = false then log Verbosity.Error w.2
  else
    match song with
    | none => log Verbosity.Error w.2
    | some c =>
      let s1 :=
        if w.2.BackgroundSong = none then { w.2 with BackgroundSong := some c }
        else ClearTimer { Stop w.2 with BackgroundSong := some c }
      SetTimer (PlaySong (some c) startTime s1)

/-- Method `UMusicManager::FadeInPlay`. With a background song set, `AudioComponent->FadeOut` is
not guarded. -/
def FadeInPlay (song : Option SoundCue) (fadeDuration : Scalar) (overlap : Bool) (s : State) :
    Option State :=
  let w := IsWorldValid s
  if w.1 = false then some (log Verbosity.Error w.2)
  else
    match song with
    | none => some (log Verbosity.Error w.2)
    | some c =>
      if w.2.BackgroundSong = none then
        let r := CreateSound2D c { w.2 with BackgroundSong := some c }
        some (SetTimer (emit (EngineCmd.FadeIn r.1 fadeDuration)
          { r.2 with AudioComponent := some r.1 }))
      else
        match w.2.AudioComponent with
        | none => none
        | some h0 =>
          let s1 := StopDelayed fadeDuration (emit (EngineCmd.FadeOut h0 fadeDuration 0) w.2)
          let s2 :=
            if overlap then
              let r := CreateSound2D c s1
              emit (EngineCmd.FadeIn r.1 fadeDuration) { r.2 with AudioComponent := some r.1 }
            else schedule fadeDuration (Deferred.fadeInCreate c fadeDuration) s1
          some (SetTimer (ClearTimer s2))

/-- Method `UMusicManager::ChimeInPlay`. -/
def ChimeInPlay (song chime : Option SoundCue) (startTime : Scalar) (s : State) : State :=
  let w := IsWorldValid s
  if w.1 = false then log Verbosity.Error w.2
  else
    match song, chime with
    | some c, some ch =>
      let r := CreateSound2D ch w.2
      schedule ch.duration (Deferred.chimeReplace c startTime) (emit (EngineCmd.Play r.1 0) r.2)
    | _, _ => log Verbosity.Error w.2

/-- Method `UMusicManager::PlayInterruption`. -/
def PlayInterruption (interruption : Option SoundCue × Bool) (s : State) : State :=
  let w := IsWorldValid s
  if w.1 = false then log Verbosity.Error w.2
  else
    match interruption.1 with
    | none => log Verbosity.Error w.2
    | some c =>
      let r := CreateSound2D c w.2
      schedule c.duration (Deferred.interruptionFinished c interruption.2)
        (emit (EngineCmd.Play r.1 0) r.2)

/-- Call `Interruptions.Pop()`. -/
def Pop (s : State) : State :=
  { s with Interruptions := s.Interruptions.tail }

/-- The loop `while (!Interruptions.IsEmpty()) { PlayInterruption(Top()); Pop(); }`, at most
`fuel` rounds. -/
def drainLoop : Nat → State → State
  | 0, s => s
  | fuel + 1, s =>
    match s.Interruptions with
    | [] => s
    | top :: _ => drainLoop fuel (Pop (PlayInterruption top s))

/-- Method `UMusicManager::Interrupt`. Every round of the loop pops one entry, so the length of the
stack is fuel enough. -/
def Interrupt (song : Option SoundCue) (keepPaused : Bool) (s : State) : State :=
  if IsSongValid s then
    let s1 := Pause { s with Interruptions := (song, keepPaused) :: s.Interruptions }
    drainLoop s1.Interruptions.length s1
  else log Verbosity.Warning s

/-- The loop `while (!Interruptions.IsEmpty()) { Interruptions.Pop(); }`, at most `fuel`
rounds. -/
def popLoop : Nat → State → State
  | 0, s => s
  | fuel + 1, s =>
    match s.Interruptions with
    | [] => s
    | _ :: _ => popLoop fuel (Pop s)

/-- Method `UMusicManager::ClearInterruptions`. -/
def ClearInterruptions (s : State) : State :=
  let s1 := log Verbosity.Display s
  Resume (popLoop s1.Interruptions.length s1)

/-- Method `UMusicManager::Restart`. The delayed branch reaches the timer manager through `World`
without a validity check. -/
def Restart (fadeOutTime : Scalar) (s : State) : Option State :=
  if IsSongValid s then
    let s1 := log Verbosity.Display s
    match s1.AudioComponent with
    | none => none
    | some h =>
      if fadeOutTime = 0 then some (emit (EngineCmd.Play h 0) (Stop s1))
      else
        let s2 := StopDelayed fadeOutTime (emit (EngineCmd.FadeOut h fadeOutTime 0) s1)
        match s2.World with
        | none => none
        | some _ => some (schedule fadeOutTime Deferred.restartReplay s2)
  else some s

/-- Method `UMusicManager::SetTime`. -/
def SetTime (newTime : Scalar) (s : State) : State :=
  if IsSongValid s then Play s.BackgroundSong newTime s else s

/-- Body of each one-shot callback, run on the state in which the timer manager fires it. -/
def runDeferred : Deferred → State → Option State
  | Deferred.fadeInCreate song fadeDuration, s =>
    let r := CreateSound2D song s
    some (emit (EngineCmd.FadeIn r.1 fadeDuration) { r.2 with AudioComponent := some r.1 })
  | Deferred.chimeReplace song startTime, s =>
    if s.BackgroundSong = none then
      some (PlaySong (some song) startTime { s with BackgroundSong := some song })
    else
      let s1 := { Stop s with BackgroundSong := some song }
      match s1.World with
      | none => none
      | some _ => some (PlaySong (some song) startTime (ClearTimer s1))
  | Deferred.interruptionFinished song keepPaused, s =>
    let s1 :=
      if s.Interruptions.isEmpty then
        (if keepPaused = false then Resume s else s)
      else s
    some (Broadcast song keepPaused s1)
  | Deferred.restartReplay, s =>
    match s.AudioComponent with
    | none => none
    | some h => some (emit (EngineCmd.Play h 0) (emit (EngineCmd.SetSound h s.BackgroundSong) s))

/-! ## Executions -/

/-- One event on the game thread: a public call, the timer manager running the `i`-th pending
callback, or the engine changing what `GetWorld()` returns. -/
inductive Op where
  | Play (song : Option SoundCue) (startTime : Scalar)
  | FadeInPlay (song : Option SoundCue) (fadeDuration : Scalar) (overlap : Bool)
  | ChimeInPlay (song chime : Option SoundCue) (startTime : Scalar)
  | Interrupt (song : Option SoundCue) (keepPaused : Bool)
  | ClearInterruptions
  | Restart (fadeOutTime : Scalar)
  | Stop
  | StopDelayed (delay : Scalar)
  | Pause
  | Resume
  | SetVolume (volume : Scalar)
  | SetPitch (pitch : Scalar)
  | SetTime (newTime : Scalar)
  | fire (i : Nat)
  | setWorld (w : Option WorldId)
deriving DecidableEq, Repr

/-- Effect of one event; `none` when the code dereferences a null pointer or no such callback
is pending. -/
def step : Op → State → Option State
  | Op.Play song startTime, s => some (Play song startTime s)
  | Op.FadeInPlay song fadeDuration overlap, s => FadeInPlay song fadeDuration overlap s
  | Op.ChimeInPlay song chime startTime, s => some (ChimeInPlay song chime startTime s)
  | Op.Interrupt song keepPaused, s => some (Interrupt song keepPaused s)
  | Op.ClearInterruptions, s => some (ClearInterruptions s)
  | Op.Restart fadeOutTime, s => Restart fadeOutTime s
  | Op.Stop, s => some (Stop s)
  | Op.StopDelayed delay, s => some (StopDelayed delay s)
  | Op.Pause, s => some (Pause s)
  | Op.Resume, s => some (Resume s)
  | Op.SetVolume volume, s => some (SetVolume volume s)
  | Op.SetPitch pitch, s => some (SetPitch pitch s)
  | Op.SetTime newTime, s => some (SetTime newTime s)
  | Op.fire i, s =>
    match s.pending.get? i with
    | none => none
    | some e => runDeferred e.2 { s with pending := s.pending.eraseIdx i }
  | Op.setWorld w, s => some { s with gameWorld := w }

/-- Run a sequence of events, left to right. -/
def run : List Op → State → Option State
  | [], s => some s
  | op :: ops, s => (step op s).bind (run ops)

/-- States reachable from `Initialize` on a fresh manager. -/
inductive Reachable : State → Prop where
  | init (w : Option WorldId) : Reachable (Initialize (constructed w))
  | next {s s1 : State} (op : Op) : Reachable s → step op s = some s1 → Reachable s1

/-- Commands issued between an earlier state `s` and a later state `s1`. -/
def issued (s s1 : State) : List EngineCmd :=
  s1.trace.drop s.trace.length

/-- Structural invariant of executions: the component and the song are set together, and a
pending `FadeInPlay` callback only exists once a background song is set. -/
def Coherent (s : State) : Prop :=
  (s.AudioComponent.isSome = s.BackgroundSong.isSome) ∧
  ∀ e ∈ s.pending, ∀ c d, e.2 = Deferred.fadeInCreate c d → s.BackgroundSong.isSome = true

/-- What one event may do to the fields the invariants speak about: an empty stack stays
empty, song and component are kept or both set, and a `FadeInPlay` callback is only added
while a background song is set. -/
def Follows (s s1 : State) : Prop :=
  (s.Interruptions = [] → s1.Interruptions = []) ∧
  ((s1.AudioComponent = s.AudioComponent ∧ s1.BackgroundSong = s.BackgroundSong) ∨
   (s1.AudioComponent.isSome = true ∧ s1.BackgroundSong.isSome = true)) ∧
  ∀ x ∈ s1.pending,
    x ∈ s.pending ∨ (∀ c d, x.2 ≠ Deferred.fadeInCreate c d) ∨ s1.BackgroundSong.isSome = true

/-- The calls that `Play`, `FadeInPlay` and `ChimeInPlay` turn down: no world, a null song,
or a null chime for `ChimeInPlay`. -/
def rejected (s : State) : Op → Bool
  | Op.Play song _ => s.gameWorld.isNone || song.isNone
  | Op.FadeInPlay song _ _ => s.gameWorld.isNone || song.isNone
  | Op.ChimeInPlay song chime _ => s.gameWorld.isNone || song.isNone || chime.isNone
  | _ => false

/-! ## Sample assets and states -/

/-- A background track. -/
def songA : SoundCue := { id := 1, duration := 180 }

/-- Another background track. -/
def songB : SoundCue := { id := 2, duration := 240 }

/-- A short interrupting clip. -/
def clipX : SoundCue := { id := 3, duration := 4 }

/-- Another interrupting clip. -/
def clipY : SoundCue := { id := 4, duration := 6 }

/-- The manager right after `Initialize`, in a game with world 7. -/
def start : State := Initialize (constructed (some 7))

/-- The manager after `Play(songA, 0)`. -/
def playingA : State := Play (some songA) 0 start

/-- The manager playing `songA` with two entries left on the stack. -/
def stackedA : State := { playingA with Interruptions := [(some clipX, true), (none, false)] }

/-- The manager after `Play(songA, 0)` and `Interrupt(clipX, true)`. -/
def interruptedA : State := Interrupt (some clipX) true playingA

/-! ## Frame lemmas -/

theorem Stop_frame (s : State) :
    (Stop s).Interruptions = s.Interruptions ∧ (Stop s).AudioComponent = s.AudioComponent ∧
    (Stop s).BackgroundSong = s.BackgroundSong ∧ (Stop s).pending = s.pending ∧
    (Stop s).broadcasts = s.broadcasts ∧ (Stop s).World = s.World := by
  unfold Stop
  split
  · split <;> simp [log, emit]
  · simp

theorem StopDelayed_frame (s : State) (d : Scalar) :
    (StopDelayed d s).Interruptions = s.Interruptions ∧
    (StopDelayed d s).AudioComponent = s.AudioComponent ∧
    (StopDelayed d s).BackgroundSong = s.BackgroundSong ∧
    (StopDelayed d s).pending = s.pending ∧
    (StopDelayed d s).broadcasts = s.broadcasts ∧ (StopDelayed d s).World = s.World := by
  unfold StopDelayed
  split
  · split <;> simp [log, emit]
  · simp

theorem Pause_frame (s : State) :
    (Pause s).Interruptions = s.Interruptions ∧ (Pause s).AudioComponent = s.AudioComponent ∧
    (Pause s).BackgroundSong = s.BackgroundSong ∧ (Pause s).pending = s.pending ∧
    (Pause s).broadcasts = s.broadcasts ∧ (Pause s).World = s.World := by
  unfold Pause
  split
  · split <;> simp [log, emit]
  · simp

theorem Resume_frame (s : State) :
    (Resume s).Interruptions = s.Interruptions ∧ (Resume s).AudioComponent = s.AudioComponent ∧
    (Resume s).BackgroundSong = s.BackgroundSong ∧ (Resume s).pending = s.pending ∧
    (Resume s).broadcasts = s.broadcasts ∧ (Resume s).World = s.World := by
  unfold Resume
  split
  · split <;> simp [log, emit]
  · simp

theorem SetVolume_frame (s : State) (v : Scalar) :
    (SetVolume v s).Interruptions = s.Interruptions ∧
    (SetVolume v s).AudioComponent = s.AudioComponent ∧
    (SetVolume v s).BackgroundSong = s.BackgroundSong ∧ (SetVolume v s).pending = s.pending ∧
    (SetVolume v s).broadcasts = s.broadcasts ∧ (SetVolume v s).World = s.World := by
  unfold SetVolume
  split
  · split <;> simp [emit]
  · simp

theorem SetPitch_frame (s : State) (v : Scalar) :
    (SetPitch v s).Interruptions = s.Interruptions ∧
    (SetPitch v s).AudioComponent = s.AudioComponent ∧
    (SetPitch v s).BackgroundSong = s.BackgroundSong ∧ (SetPitch v s).pending = s.pending ∧
    (SetPitch v s).broadcasts = s.broadcasts ∧ (SetPitch v s).World = s.World := by
  unfold SetPitch
  split
  · split <;> simp [emit]
  · simp

theorem PlayInterruption_frame (s : State) (e : Option SoundCue × Bool) :
    (PlayInterruption e s).Interruptions = s.Interruptions ∧
    (PlayInterruption e s).AudioComponent = s.AudioComponent ∧
    (PlayInterruption e s).BackgroundSong = s.BackgroundSong ∧
    (PlayInterruption e s).broadcasts = s.broadcasts := by
  unfold PlayInterruption
  simp only [IsWorldValid]
  split
  · simp [log]
  · split <;> simp [log, schedule, emit, CreateSound2D]

theorem PlayInterruption_pending (s : State) (e : Option SoundCue × Bool) :
    ∀ x ∈ (PlayInterruption e s).pending,
      x ∈ s.pending ∨ ∃ c k, x.2 = Deferred.interruptionFinished c k := by
  unfold PlayInterruption
  simp only [IsWorldValid]
  split
  · intro x hx
    exact Or.inl (by simpa [log] using hx)
  · split
    · intro x hx
      exact Or.inl (by simpa [log] using hx)
    · intro x hx
      simp [schedule, emit, CreateSound2D] at hx
      rcases hx with hx | hx
      · exact Or.inl hx
      · exact Or.inr ⟨_, _, by rw [hx]⟩

/-! ## The two loops -/

theorem drainLoop_frame (n : Nat) : ∀ s : State,
    (drainLoop n s).AudioComponent = s.AudioComponent ∧
    (drainLoop n s).BackgroundSong = s.BackgroundSong ∧
    (drainLoop n s).broadcasts = s.broadcasts := by
  induction n with
  | zero => intro s; simp [drainLoop]
  | succ n ih =>
    intro s
    unfold drainLoop
    split
    · simp
    · rename_i top rest hs
      obtain ⟨h1, h2, h3⟩ := ih (Pop (PlayInterruption top s))
      obtain ⟨_, p2, p3, p4⟩ := PlayInterruption_frame s top
      rw [h1, h2, h3]
      simp [Pop, p2, p3, p4]

theorem drainLoop_pending (n : Nat) : ∀ s : State,
    ∀ x ∈ (drainLoop n s).pending,
      x ∈ s.pending ∨ ∃ c k, x.2 = Deferred.interruptionFinished c k := by
  induction n with
  | zero => intro s x hx; exact Or.inl (by simpa [drainLoop] using hx)
  | succ n ih =>
    intro s x hx
    unfold drainLoop at hx
    split at hx
    · exact Or.inl hx
    · rename_i top rest hs
      rcases ih _ x hx with h | h
      · exact PlayInterruption_pending s top x (by simpa [Pop] using h)
      · exact Or.inr h

theorem drainLoop_empty (n : Nat) : ∀ s : State,
    s.Interruptions.length ≤ n → (drainLoop n s).Interruptions = [] := by
  induction n with
  | zero =>
    intro s h
    simpa [drainLoop] using h
  | succ n ih =>
    intro s h
    unfold drainLoop
    split
    · assumption
    · rename_i top rest hs
      apply ih
      have := (PlayInterruption_frame s top).1
      simp only [Pop, this, hs, List.tail_cons]
      simp only [hs, List.length_cons] at h
      omega

theorem popLoop_eq (n : Nat) : ∀ s : State,
    popLoop n s = { s with Interruptions := s.Interruptions.drop n } := by
  induction n with
  | zero => intro s; simp [popLoop]
  | succ n ih =>
    intro s
    unfold popLoop
    split
    · rename_i hs
      cases s
      simp_all
    · rename_i a l hs
      rw [ih]
      simp [Pop, hs]

theorem ClearInterruptions_eq (s : State) :
    ClearInterruptions s = Resume { log Verbosity.Display s with Interruptions := [] } := by
  unfold ClearInterruptions
  simp only [popLoop_eq]
  congr 2
  simp [log]

/-! ## What each event does to the stack, the song and the component -/

theorem Play_frame (song : Option SoundCue) (t : Scalar) (s : State) :
    (Play song t s).Interruptions = s.Interruptions ∧ (Play song t s).pending = s.pending ∧
    (((Play song t s).AudioComponent = s.AudioComponent ∧
      (Play song t s).BackgroundSong = s.BackgroundSong) ∨
     ((Play song t s).AudioComponent.isSome = true ∧
      (Play song t s).BackgroundSong.isSome = true)) := by
  obtain ⟨h1, h2, h3, h4, h5, h6⟩ := Stop_frame { s with World := s.gameWorld }
  unfold Play
  simp only [IsWorldValid]
  split
  · simp [log]
  · split
    · simp [log]
    · split <;>
        simp_all [PlaySong, SetTimer, ClearTimer, CreateSound2D, emit]

theorem FadeInPlay_frame (song : Option SoundCue) (d : Scalar) (ov : Bool) (s s1 : State)
    (h : FadeInPlay song d ov s = some s1) :
    s1.Interruptions = s.Interruptions ∧
    ((s1.AudioComponent = s.AudioComponent ∧ s1.BackgroundSong = s.BackgroundSong ∧
        s1.pending = s.pending) ∨
     (s1.AudioComponent.isSome = true ∧ s1.BackgroundSong.isSome = true ∧
        s1.pending = s.pending) ∨
     (s1.AudioComponent = s.AudioComponent ∧ s1.BackgroundSong = s.BackgroundSong ∧
        s.BackgroundSong.isSome = true ∧
        ∃ c, s1.pending = s.pending ++ [(d, Deferred.fadeInCreate c d)])) := by
  obtain ⟨h1, h2, h3, h4, h5, h6⟩ :=
    StopDelayed_frame
      (emit (EngineCmd.FadeOut (s.AudioComponent.getD 0) d 0) { s with World := s.gameWorld }) d
  unfold FadeInPlay at h
  simp only [IsWorldValid] at h
  split at h
  · cases h; simp [log]
  · split at h
    · cases h; simp [log]
    · split at h
      · cases h
        simp [SetTimer, emit, CreateSound2D]
      · rename_i c hbs
        split at h
        · cases h
        · rename_i h0 hac
          simp only [hac, Option.getD_some] at h1 h2 h3 h4 h5 h6
          cases h
          cases ov
          · simp_all [SetTimer, ClearTimer, schedule, emit]
            exact Option.ne_none_iff_isSome.mp hbs
          · simp_all [SetTimer, ClearTimer, CreateSound2D, emit]
            exact Or.inr (Option.ne_none_iff_isSome.mp hbs)

theorem Follows_of_frame {s s1 : State} (h1 : s1.Interruptions = s.Interruptions)
    (h2 : s1.AudioComponent = s.AudioComponent) (h3 : s1.BackgroundSong = s.BackgroundSong)
    (h4 : s1.pending = s.pending) : Follows s s1 :=
  ⟨fun h => by rw [h1, h], Or.inl ⟨h2, h3⟩, fun x hx => Or.inl (by rw [← h4]; exact hx)⟩

theorem ChimeInPlay_frame (song chime : Option SoundCue) (t : Scalar) (s : State) :
    (ChimeInPlay song chime t s).Interruptions = s.Interruptions ∧
    (ChimeInPlay song chime t s).AudioComponent = s.AudioComponent ∧
    (ChimeInPlay song chime t s).BackgroundSong = s.BackgroundSong ∧
    ((ChimeInPlay song chime t s).pending = s.pending ∨
      ∃ c d, (ChimeInPlay song chime t s).pending = s.pending ++ [(d, Deferred.chimeReplace c t)])
    := by
  unfold ChimeInPlay
  simp only [IsWorldValid]
  split
  · simp [log]
  · split
    · simp [schedule, emit, CreateSound2D]
    · simp [log]

theorem Restart_frame (f : Scalar) (s s1 : State) (h : Restart f s = some s1) :
    s1.Interruptions = s.Interruptions ∧ s1.AudioComponent = s.AudioComponent ∧
    s1.BackgroundSong = s.BackgroundSong ∧
    (s1.pending = s.pending ∨ s1.pending = s.pending ++ [(f, Deferred.restartReplay)]) := by
  rcases s with ⟨I, T, W, AC, BS, gw, nh, nt, tr, pe, br, lg⟩
  cases AC <;> cases BS <;> cases W <;> by_cases hf : f = 0 <;>
    simp [Restart, IsSongValid, Stop, StopDelayed, log, emit, schedule, hf] at h <;>
    subst h <;> simp

theorem Interrupt_frame (song : Option SoundCue) (k : Bool) (s : State) :
    (s.Interruptions = [] → (Interrupt song k s).Interruptions = []) ∧
    (IsSongValid s = true → (Interrupt song k s).Interruptions = []) ∧
    (Interrupt song k s).AudioComponent = s.AudioComponent ∧
    (Interrupt song k s).BackgroundSong = s.BackgroundSong ∧
    (Interrupt song k s).broadcasts = s.broadcasts ∧
    ∀ x ∈ (Interrupt song k s).pending,
      x ∈ s.pending ∨ ∃ c k0, x.2 = Deferred.interruptionFinished c k0 := by
  unfold Interrupt
  split
  · obtain ⟨p1, p2, p3, p4, p5, _⟩ :=
      Pause_frame { s with Interruptions := (song, k) :: s.Interruptions }
    obtain ⟨d1, d2, d3⟩ := drainLoop_frame
      (Pause { s with Interruptions := (song, k) :: s.Interruptions }).Interruptions.length
      (Pause { s with Interruptions := (song, k) :: s.Interruptions })
    have d4 := drainLoop_empty
      (Pause { s with Interruptions := (song, k) :: s.Interruptions }).Interruptions.length
      (Pause { s with Interruptions := (song, k) :: s.Interruptions }) (le_refl _)
    refine ⟨fun _ => d4, fun _ => d4, by rw [d1, p2], by rw [d2, p3], by rw [d3, p5], ?_⟩
    intro x hx
    rcases drainLoop_pending _ _ x hx with h | h
    · exact Or.inl (by rw [p4] at h; exact h)
    · exact Or.inr h
  · rename_i hv
    refine ⟨fun h => by simpa [log] using h, fun h => absurd h hv, by simp [log],
      by simp [log], by simp [log], ?_⟩
    intro x hx
    exact Or.inl (by simpa [log] using hx)

theorem IsSongValid_iff (s : State) :
    IsSongValid s = true ↔ ∃ c h, s.BackgroundSong = some c ∧ s.AudioComponent = some h := by
  rcases s with ⟨I, T, W, AC, BS, gw, nh, nt, tr, pe, br, lg⟩
  cases AC <;> cases BS <;> simp [IsSongValid]

theorem runDeferred_frame (cb : Deferred) (s s1 : State)
    (hcb : ∀ c d, cb = Deferred.fadeInCreate c d → s.BackgroundSong.isSome = true)
    (h : runDeferred cb s = some s1) :
    s1.Interruptions = s.Interruptions ∧ s1.pending = s.pending ∧
    ((s1.AudioComponent = s.AudioComponent ∧ s1.BackgroundSong = s.BackgroundSong) ∨
     (s1.AudioComponent.isSome = true ∧ s1.BackgroundSong.isSome = true)) := by
  rcases s with ⟨I, T, W, AC, BS, gw, nh, nt, tr, pe, br, lg⟩
  cases cb with
  | fadeInCreate c d =>
    have hb := hcb c d rfl
    simp [runDeferred, CreateSound2D, emit] at h
    subst h
    simp only [Option.isSome_some, true_and]
    exact Or.inr (by simpa using hb)
  | chimeReplace c t0 =>
    cases AC <;> cases BS <;> cases W <;>
      simp [runDeferred, PlaySong, CreateSound2D, ClearTimer, Stop, IsSongValid, emit, log] at h <;>
      subst h <;> simp
  | interruptionFinished c k =>
    cases AC <;> cases BS <;> cases I <;> cases k <;>
      simp [runDeferred, Resume, Broadcast, IsSongValid, emit, log] at h <;>
      subst h <;> simp
  | restartReplay =>
    cases AC <;> simp [runDeferred, emit] at h
    subst h
    simp

theorem step_Follows (op : Op) (s s1 : State) (hc : Coherent s) (h : step op s = some s1) :
    Follows s s1 := by
  cases op with
  | Play song t0 =>
    simp only [step, Option.some.injEq] at h
    subst h
    obtain ⟨h1, h2, h3⟩ := Play_frame song t0 s
    exact ⟨fun h => by rw [h1, h], h3, fun x hx => Or.inl (by rw [← h2]; exact hx)⟩
  | FadeInPlay song d ov =>
    simp only [step] at h
    obtain ⟨h1, h2⟩ := FadeInPlay_frame song d ov s s1 h
    refine ⟨fun h => by rw [h1, h], ?_, ?_⟩
    · rcases h2 with ⟨a, b, _⟩ | ⟨a, b, _⟩ | ⟨a, b, _⟩
      · exact Or.inl ⟨a, b⟩
      · exact Or.inr ⟨a, b⟩
      · exact Or.inl ⟨a, b⟩
    · intro x hx
      rcases h2 with ⟨_, _, c⟩ | ⟨_, b, _⟩ | ⟨_, b, b1, c, hp⟩
      · exact Or.inl (by rw [← c]; exact hx)
      · exact Or.inr (Or.inr b)
      · exact Or.inr (Or.inr (by rw [b]; exact b1))
  | ChimeInPlay song chime t0 =>
    simp only [step, Option.some.injEq] at h
    subst h
    obtain ⟨h1, h2, h3, h4⟩ := ChimeInPlay_frame song chime t0 s
    refine ⟨fun h => by rw [h1, h], Or.inl ⟨h2, h3⟩, ?_⟩
    intro x hx
    rcases h4 with h4 | ⟨c, d, h4⟩
    · exact Or.inl (by rw [← h4]; exact hx)
    · rw [h4] at hx
      rcases List.mem_append.mp hx with hx | hx
      · exact Or.inl hx
      · refine Or.inr (Or.inl ?_)
        intro c0 d0 hcd
        rw [List.mem_singleton.mp hx] at hcd
        cases hcd
  | Interrupt song k =>
    simp only [step, Option.some.injEq] at h
    subst h
    obtain ⟨h1, _, h2, h3, _, h4⟩ := Interrupt_frame song k s
    refine ⟨h1, Or.inl ⟨h2, h3⟩, ?_⟩
    intro x hx
    rcases h4 x hx with hx | ⟨c, k0, hx⟩
    · exact Or.inl hx
    · refine Or.inr (Or.inl ?_)
      intro c0 d0 hcd
      rw [hx] at hcd
      cases hcd
  | ClearInterruptions =>
    simp only [step, Option.some.injEq] at h
    subst h
    rw [ClearInterruptions_eq]
    obtain ⟨h1, h2, h3, h4, _, _⟩ :=
      Resume_frame { log Verbosity.Display s with Interruptions := [] }
    refine ⟨fun _ => by rw [h1], Or.inl ⟨by rw [h2]; rfl, by rw [h3]; rfl⟩, ?_⟩
    intro x hx
    rw [h4] at hx
    exact Or.inl hx
  | Restart f =>
    simp only [step] at h
    obtain ⟨h1, h2, h3, h4⟩ := Restart_frame f s s1 h
    refine ⟨fun h => by rw [h1, h], Or.inl ⟨h2, h3⟩, ?_⟩
    intro x hx
    rcases h4 with h4 | h4
    · exact Or.inl (by rw [← h4]; exact hx)
    · rw [h4] at hx
      rcases List.mem_append.mp hx with hx | hx
      · exact Or.inl hx
      · refine Or.inr (Or.inl ?_)
        intro c0 d0 hcd
        rw [List.mem_singleton.mp hx] at hcd
        cases hcd
  | Stop =>
    simp only [step, Option.some.injEq] at h
    subst h
    obtain ⟨h1, h2, h3, h4, _, _⟩ := Stop_frame s
    exact Follows_of_frame h1 h2 h3 h4
  | StopDelayed d =>
    simp only [step, Option.some.injEq] at h
    subst h
    obtain ⟨h1, h2, h3, h4, _, _⟩ := StopDelayed_frame s d
    exact Follows_of_frame h1 h2 h3 h4
  | Pause =>
    simp only [step, Option.some.injEq] at h
    subst h
    obtain ⟨h1, h2, h3, h4, _, _⟩ := Pause_frame s
    exact Follows_of_frame h1 h2 h3 h4
  | Resume =>
    simp only [step, Option.some.injEq] at h
    subst h
    obtain ⟨h1, h2, h3, h4, _, _⟩ := Resume_frame s
    exact Follows_of_frame h1 h2 h3 h4
  | SetVolume v =>
    simp only [step, Option.some.injEq] at h
    subst h
    obtain ⟨h1, h2, h3, h4, _, _⟩ := SetVolume_frame s v
    exact Follows_of_frame h1 h2 h3 h4
  | SetPitch v =>
    simp only [step, Option.some.injEq] at h
    subst h
    obtain ⟨h1, h2, h3, h4, _, _⟩ := SetPitch_frame s v
    exact Follows_of_frame h1 h2 h3 h4
  | SetTime t0 =>
    simp only [step, Option.some.injEq] at h
    subst h
    unfold SetTime
    split
    · obtain ⟨h1, h2, h3⟩ := Play_frame s.BackgroundSong t0 s
      exact ⟨fun h => by rw [h1, h], h3, fun x hx => Or.inl (by rw [← h2]; exact hx)⟩
    · exact Follows_of_frame rfl rfl rfl rfl
  | fire i =>
    simp only [step] at h
    split at h
    · cases h
    · rename_i e he
      have hmem : e ∈ s.pending := List.get?_mem he
      obtain ⟨h1, h2, h3⟩ := runDeferred_frame e.2 { s with pending := s.pending.eraseIdx i } s1
        (fun c d hcd => hc.2 e hmem c d hcd) h
      refine ⟨fun h => by rw [h1]; exact h, h3, ?_⟩
      intro x hx
      rw [h2] at hx
      exact Or.inl (List.mem_of_mem_eraseIdx hx)
  | setWorld w =>
    simp only [step, Option.some.injEq] at h
    subst h
    exact Follows_of_frame rfl rfl rfl rfl

theorem Coherent_of_Follows {s s1 : State} (hc : Coherent s) (hf : Follows s s1) :
    Coherent s1 := by
  obtain ⟨_, h2, h3⟩ := hf
  have hbs : s.BackgroundSong.isSome = true → s1.BackgroundSong.isSome = true := by
    intro h
    rcases h2 with ⟨_, b⟩ | ⟨_, b⟩
    · rw [b]; exact h
    · exact b
  refine ⟨?_, ?_⟩
  · rcases h2 with ⟨a, b⟩ | ⟨a, b⟩
    · rw [a, b]; exact hc.1
    · rw [a, b]
  · intro e he c d hcd
    rcases h3 e he with h | h | h
    · exact hbs (hc.2 e h c d hcd)
    · exact absurd hcd (h c d)
    · exact h

theorem Reachable_Coherent {s : State} (h : Reachable s) : Coherent s := by
  induction h with
  | init w => exact ⟨rfl, fun e he => by simp [Initialize, constructed] at he⟩
  | next op _ hstep ih => exact Coherent_of_Follows ih (step_Follows op _ _ ih hstep)

theorem Reachable_stack_empty {s : State} (h : Reachable s) : s.Interruptions = [] := by
  induction h with
  | init w => rfl
  | next op hr hstep ih => exact (step_Follows op _ _ (Reachable_Coherent hr) hstep).1 ih

/-- C1. `FadeInPlay` on an active background song never assigns `BackgroundSong`: after
`Play(songA)` and `FadeInPlay(songB, 2, overlap)`, `GetSong()` still returns `songA`, at once
for `overlap = true` and also after the deferred callback has run for `overlap = false`. -/
theorem FadeInPlay_keeps_previous_BackgroundSong :
    (run [Op.Play (some songA) 0, Op.FadeInPlay (some songB) 2 true] start).map GetSong
      = some (some songA) ∧
    (run [Op.Play (some songA) 0, Op.FadeInPlay (some songB) 2 false, Op.fire 0] start).map
      GetSong = some (some songA) := by
  decide

/-- C2. In every state reachable from `Initialize` the playback handle is non-null if and
only if `BackgroundSong` is non-null. -/
theorem handle_iff_song_of_Reachable (s : State) (h : Reachable s) :
    s.AudioComponent ≠ none ↔ s.BackgroundSong ≠ none := by
  have hc := (Reachable_Coherent h).1
  rw [Option.ne_none_iff_isSome, Option.ne_none_iff_isSome, hc]

/-- Instance of the C2 theorem on a concrete state. -/
theorem handle_iff_song_of_Reachable_witness :
    Reachable playingA ∧ (playingA.AudioComponent ≠ none ↔ playingA.BackgroundSong ≠ none) :=
  ⟨Reachable.next (Op.Play (some songA) 0) (Reachable.init (some 7)) rfl,
   handle_iff_song_of_Reachable playingA
     (Reachable.next (Op.Play (some songA) 0) (Reachable.init (some 7)) rfl)⟩

/-- C7. When `IsSongValid()` is false, `Interrupt` changes nothing but the log, to which it
adds one warning: the stack keeps its contents, no instance is created, no callback is
scheduled and nothing is broadcast. -/
theorem Interrupt_without_song (s : State) (song : Option SoundCue) (k : Bool)
    (h : IsSongValid s = false) :
    Interrupt song k s = { s with logs := s.logs ++ [Verbosity.Warning] } := by
  unfold Interrupt
  simp [h, log]

/-- Instance of the C7 theorem on a concrete state. -/
theorem Interrupt_without_song_witness :
    IsSongValid start = false ∧
    Interrupt (some clipX) true start = { start with logs := start.logs ++ [Verbosity.Warning] } :=
  ⟨by decide, Interrupt_without_song start (some clipX) true (by decide)⟩

/-- C6. A `Play`, `FadeInPlay` or `ChimeInPlay` call made without a world, with a null song
or (for `ChimeInPlay`) with a null chime returns, and all it does is log one error and
refresh the cached `World` pointer: `BackgroundSong`, the playback handle, the stack, the
elapsed timer, the engine trace and the pending callbacks are the same as before. -/
theorem rejected_call_changes_nothing (s : State) (op : Op) (h : rejected s op = true) :
    ∃ s1, step op s = some s1 ∧
      s1 = { s with World := s.gameWorld, logs := s.logs ++ [Verbosity.Error] } ∧
      s1.BackgroundSong = s.BackgroundSong ∧ s1.AudioComponent = s.AudioComponent ∧
      s1.Interruptions = s.Interruptions ∧ s1.Timer = s.Timer ∧ s1.trace = s.trace ∧
      s1.pending = s.pending := by
  rcases s with ⟨I, T, W, AC, BS, gw, nh, nt, tr, pe, br, lg⟩
  cases op with
  | Play song t0 =>
    cases gw <;> cases song <;> simp [rejected] at h <;>
      simp [step, Play, IsWorldValid, log]
  | FadeInPlay song d ov =>
    cases gw <;> cases song <;> simp [rejected] at h <;>
      simp [step, FadeInPlay, IsWorldValid, log]
  | ChimeInPlay song chime t0 =>
    cases gw <;> cases song <;> cases chime <;> simp [rejected] at h <;>
      simp [step, ChimeInPlay, IsWorldValid, log]
  | _ => simp [rejected] at h

/-- Instance of the C6 theorem on a concrete state. -/
theorem rejected_call_changes_nothing_witness :
    rejected playingA (Op.ChimeInPlay (some songB) none 5) = true ∧
    ∃ s1, step (Op.ChimeInPlay (some songB) none 5) playingA = some s1 ∧
      s1 = { playingA with World := playingA.gameWorld,
                           logs := playingA.logs ++ [Verbosity.Error] } ∧
      s1.BackgroundSong = playingA.BackgroundSong ∧
      s1.AudioComponent = playingA.AudioComponent ∧
      s1.Interruptions = playingA.Interruptions ∧ s1.Timer = playingA.Timer ∧
      s1.trace = playingA.trace ∧ s1.pending = playingA.pending :=
  ⟨by decide,
   rejected_call_changes_nothing playingA (Op.ChimeInPlay (some songB) none 5) (by decide)⟩

/-- C8. With a world, a background song on handle `h` and a non-null `b`, `Play(b, t)` issues
`Stop` on `h`, then creates an instance for `b` and plays it at offset `t`; afterwards
`GetSong()` is `b`, `IsSongValid()` holds and the active handle is the new instance. -/
theorem Play_replaces_active_song (s : State) (a b : SoundCue) (h : Handle) (t : Scalar)
    (hw : s.gameWorld.isSome = true) (hb : s.BackgroundSong = some a)
    (ha : s.AudioComponent = some h) :
    (Play (some b) t s).trace = s.trace ++
      [EngineCmd.Stop h, EngineCmd.ClearTimer, EngineCmd.CreateSound2D s.nextHandle b,
       EngineCmd.Play s.nextHandle t, EngineCmd.SetTimer] ∧
    GetSong (Play (some b) t s) = some b ∧
    IsSongValid (Play (some b) t s) = true ∧
    (Play (some b) t s).AudioComponent = some s.nextHandle := by
  rcases s with ⟨I, T, W, AC, BS, gw, nh, nt, tr, pe, br, lg⟩
  simp only at hw hb ha
  subst hb ha
  cases gw with
  | none => simp at hw
  | some w =>
    simp [Play, IsWorldValid, Stop, IsSongValid, PlaySong, CreateSound2D, SetTimer, ClearTimer,
      GetSong, emit, log]

/-- Instance of the C8 theorem on a concrete state. -/
theorem Play_replaces_active_song_witness :
    playingA.gameWorld.isSome = true ∧ playingA.BackgroundSong = some songA ∧
    playingA.AudioComponent = some 0 ∧
    ((Play (some songB) 5 playingA).trace = playingA.trace ++
      [EngineCmd.Stop 0, EngineCmd.ClearTimer, EngineCmd.CreateSound2D playingA.nextHandle songB,
       EngineCmd.Play playingA.nextHandle 5, EngineCmd.SetTimer] ∧
     GetSong (Play (some songB) 5 playingA) = some songB ∧
     IsSongValid (Play (some songB) 5 playingA) = true ∧
     (Play (some songB) 5 playingA).AudioComponent = some playingA.nextHandle) :=
  ⟨by decide, by decide, by decide,
   Play_replaces_active_song playingA songA songB 0 5 (by decide) (by decide) (by decide)⟩

/-- C3, as stated, fails: with a background song playing, `Interrupt(nullptr, false)` and an
`Interrupt` made while `GetWorld()` is null schedule no callback and broadcast nothing, so
the notification is delivered zero times. -/
theorem Interrupt_null_song_schedules_nothing :
    IsSongValid playingA = true ∧
    (Interrupt none false playingA).pending = [] ∧
    (Interrupt none false playingA).broadcasts = [] ∧
    (run [Op.setWorld none, Op.Interrupt (some clipX) false] playingA).map
      (fun s => (s.pending, s.broadcasts)) = some ([], []) := by
  decide

/-- C3, amended. In a reachable state with a valid background song and a world,
`Interrupt(c, k)` with a non-null `c` broadcasts nothing itself and schedules exactly one
callback, after `c`'s duration; that callback, whenever it runs, broadcasts `(c, k)` exactly
once. With a null song or without a world the call schedules and broadcasts nothing. -/
theorem Interrupt_broadcasts_once (s : State) (c : SoundCue) (k : Bool) (hr : Reachable s)
    (hv : IsSongValid s = true) (hw : s.gameWorld.isSome = true) :
    (Interrupt (some c) k s).pending
      = s.pending ++ [(c.duration, Deferred.interruptionFinished c k)] ∧
    (Interrupt (some c) k s).broadcasts = s.broadcasts ∧
    (∀ s1, ∃ s2, runDeferred (Deferred.interruptionFinished c k) s1 = some s2 ∧
      s2.broadcasts = s1.broadcasts ++ [(c, k)]) ∧
    (Interrupt none k s).pending = s.pending ∧
    (Interrupt none k s).broadcasts = s.broadcasts ∧
    (Interrupt (some c) k { s with gameWorld := none }).pending = s.pending ∧
    (Interrupt (some c) k { s with gameWorld := none }).broadcasts = s.broadcasts := by
  have hi := Reachable_stack_empty hr
  obtain ⟨a, h, hb, ha⟩ := (IsSongValid_iff s).mp hv
  rcases s with ⟨I, T, W, AC, BS, gw, nh, nt, tr, pe, br, lg⟩
  simp only at hi hb ha hw
  subst hi hb ha
  cases gw with
  | none => simp at hw
  | some w =>
    refine ⟨?_, ?_, ?_, ?_, ?_, ?_, ?_⟩
    · simp [Interrupt, IsSongValid, Pause, drainLoop, PlayInterruption, IsWorldValid, Pop,
        CreateSound2D, schedule, emit, log]
    · simp [Interrupt, IsSongValid, Pause, drainLoop, PlayInterruption, IsWorldValid, Pop,
        CreateSound2D, schedule, emit, log]
    · intro s1
      have hres := (Resume_frame s1).2.2.2.2.1
      refine ⟨_, rfl, ?_⟩
      by_cases h1 : s1.Interruptions.isEmpty = true <;> cases k <;>
        simp [Broadcast, h1, hres]
    · simp [Interrupt, IsSongValid, Pause, drainLoop, PlayInterruption, IsWorldValid, Pop,
        emit, log]
    · simp [Interrupt, IsSongValid, Pause, drainLoop, PlayInterruption, IsWorldValid, Pop,
        emit, log]
    · simp [Interrupt, IsSongValid, Pause, drainLoop, PlayInterruption, IsWorldValid, Pop,
        emit, log]
    · simp [Interrupt, IsSongValid, Pause, drainLoop, PlayInterruption, IsWorldValid, Pop,
        emit, log]

/-- Instance of the C3 theorem on a concrete state. -/
theorem Interrupt_broadcasts_once_witness :
    Reachable playingA ∧ IsSongValid playingA = true ∧ playingA.gameWorld.isSome = true ∧
    ((Interrupt (some clipX) true playingA).pending
      = playingA.pending ++ [(clipX.duration, Deferred.interruptionFinished clipX true)] ∧
    (Interrupt (some clipX) true playingA).broadcasts = playingA.broadcasts ∧
    (∀ s1, ∃ s2, runDeferred (Deferred.interruptionFinished clipX true) s1 = some s2 ∧
      s2.broadcasts = s1.broadcasts ++ [(clipX, true)]) ∧
    (Interrupt none true playingA).pending = playingA.pending ∧
    (Interrupt none true playingA).broadcasts = playingA.broadcasts ∧
    (Interrupt (some clipX) true { playingA with gameWorld := none }).pending
      = playingA.pending ∧
    (Interrupt (some clipX) true { playingA with gameWorld := none }).broadcasts
      = playingA.broadcasts) :=
  ⟨Reachable.next (Op.Play (some songA) 0) (Reachable.init (some 7)) rfl, by decide, by decide,
   Interrupt_broadcasts_once playingA clipX true
     (Reachable.next (Op.Play (some songA) 0) (Reachable.init (some 7)) rfl)
     (by decide) (by decide)⟩

/-- C5, as stated, fails: right after `Initialize` no background song exists and
`ClearInterruptions` issues no command at all, so nothing is resumed. -/
theorem ClearInterruptions_without_song_resumes_nothing :
    IsSongValid start = false ∧ (ClearInterruptions start).trace = [] := by
  decide

/-- C5, amended. In every state, whatever the stack holds, `ClearInterruptions` empties the
stack, creates no instance, schedules no callback and broadcasts nothing. With a valid
background song on handle `h` it issues `SetPaused(false)` on `h` and nothing else; without
a valid background song it issues no engine command at all. -/
theorem ClearInterruptions_resumes_valid_song (s : State) :
    (ClearInterruptions s).Interruptions = [] ∧
    (ClearInterruptions s).nextHandle = s.nextHandle ∧
    (ClearInterruptions s).pending = s.pending ∧
    (ClearInterruptions s).broadcasts = s.broadcasts ∧
    (∀ h, IsSongValid s = true → s.AudioComponent = some h →
      (ClearInterruptions s).trace = s.trace ++ [EngineCmd.SetPaused h false]) ∧
    (IsSongValid s = false → (ClearInterruptions s).trace = s.trace) := by
  rw [ClearInterruptions_eq]
  rcases s with ⟨I, T, W, AC, BS, gw, nh, nt, tr, pe, br, lg⟩
  cases AC <;> cases BS <;> simp [Resume, IsSongValid, emit, log]

/-- Instance of the C5 theorem on a state with a song and two stacked entries, and on the
state right after `Initialize`. -/
theorem ClearInterruptions_resumes_valid_song_witness :
    IsSongValid stackedA = true ∧ stackedA.AudioComponent = some 0 ∧
    (ClearInterruptions stackedA).Interruptions = [] ∧
    (ClearInterruptions stackedA).trace = stackedA.trace ++ [EngineCmd.SetPaused 0 false] ∧
    IsSongValid start = false ∧ (ClearInterruptions start).trace = start.trace :=
  ⟨by decide, by decide,
   (ClearInterruptions_resumes_valid_song stackedA).1,
   (ClearInterruptions_resumes_valid_song stackedA).2.2.2.2.1 0 (by decide) (by decide),
   by decide,
   (ClearInterruptions_resumes_valid_song start).2.2.2.2.2 (by decide)⟩

/-- C9. Two `Interrupt` calls in a row: the instance of `clipY` (handle 2) is created and
played within the second call, while the finish callback of `clipX` is still pending. -/
theorem second_Interrupt_plays_over_first :
    (run [Op.Interrupt (some clipX) false, Op.Interrupt (some clipY) false] playingA).map
      (fun s => (issued playingA s, s.pending)) =
    some ([EngineCmd.SetPaused 0 true, EngineCmd.CreateSound2D 1 clipX, EngineCmd.Play 1 0,
           EngineCmd.SetPaused 0 true, EngineCmd.CreateSound2D 2 clipY, EngineCmd.Play 2 0],
          [(4, Deferred.interruptionFinished clipX false),
           (6, Deferred.interruptionFinished clipY false)]) := by
  decide

/-- C10. In every state reachable from `Initialize` the interruption stack is empty, and it
is empty again after any `Interrupt` call; so a finish callback that fires there does not
look at other interruptions: it resumes exactly when its own `keepPaused` is false, and then
broadcasts. -/
theorem stack_empty_between_calls (s : State) (h : Reachable s) :
    s.Interruptions = [] ∧
    (∀ song k, (Interrupt song k s).Interruptions = []) ∧
    ∀ c k, runDeferred (Deferred.interruptionFinished c k) s =
      some (Broadcast c k (if k = false then Resume s else s)) := by
  have hi := Reachable_stack_empty h
  refine ⟨hi, fun song k => (Interrupt_frame song k s).1 hi, ?_⟩
  intro c k
  simp [runDeferred, hi]

/-- Instance of the C10 theorem on a concrete state. -/
theorem stack_empty_between_calls_witness :
    Reachable interruptedA ∧
    (interruptedA.Interruptions = [] ∧
    (∀ song k, (Interrupt song k interruptedA).Interruptions = []) ∧
    ∀ c k, runDeferred (Deferred.interruptionFinished c k) interruptedA =
      some (Broadcast c k (if k = false then Resume interruptedA else interruptedA))) :=
  ⟨Reachable.next (Op.Interrupt (some clipX) true)
     (Reachable.next (Op.Play (some songA) 0) (Reachable.init (some 7)) rfl) rfl,
   stack_empty_between_calls interruptedA
     (Reachable.next (Op.Interrupt (some clipX) true)
       (Reachable.next (Op.Play (some songA) 0) (Reachable.init (some 7)) rfl) rfl)⟩

end MusicManager
